import Mathlib

/-!
Shallow embedding of the URL-shortener core (`url-shortner/main.py`).

Modelling conventions:
* The SQLite table of `URL` rows is a `List URLRecord` (`Store`); insertion
  (`db.add` + `db.commit`) appends at the end; `db.query(URL).filter(
  URL.short_code == c).first()` is `findByCode`.
* Wall-clock time (`datetime.utcnow()`) is an explicit `Int` parameter `now`,
  measured in days; `timedelta(days=d)` adds `d`.
* The external URL validator (`validators.url`) is an oracle
  `valid : String → Bool`; the secure random source behind
  `secrets.choice` is an oracle `choice : Nat → Nat` (resp. the whole
  `generate_short_code` call stream is `gen : Nat → String` where callers
  loop on it).
* The unbounded `while True` retry loop is given `fuel`; a result of `none`
  from `shorten_url`/`bulk_shorten_urls` models the loop not having
  terminated within `fuel` candidate draws.
* QR-code rendering is external and carries no information the claims
  mention; it is omitted from the modelled responses.
-/

namespace UrlShortener

/-- The `URL` SQLAlchemy model (main.py lines 26-36): one persisted record.
`id` is the row position in the store list and is not modelled as a field. -/
structure URLRecord where
  short_code : String
  original_url : String
  created_at : Int
  click_count : Nat
  expires_at : Option Int
  is_active : Bool
  title : Option String
deriving DecidableEq

/-- The persisted table of records, in insertion order. -/
abbrev Store := List URLRecord

/-- `db.query(URL).filter(URL.short_code == code).first()`: the first stored
record whose `short_code` equals `code` (exact, case-sensitive). -/
def findByCode (code : String) (db : Store) : Option URLRecord :=
  db.find? (fun r => r.short_code == code)

/-- Update the first record whose `short_code` matches `code` by `f`,
leaving every other record unchanged: this is what mutating the object
returned by `.first()` and committing does to the table. -/
def updateFirst (code : String) (f : URLRecord → URLRecord) : Store → Store
  | [] => []
  | r :: rest =>
    if r.short_code == code then f r :: rest else r :: updateFirst code f rest

/-- `is_url_expired` (main.py lines 106-110): false when `expires_at` is
absent, else whether `utcnow() > expires_at`. -/
def is_url_expired (r : URLRecord) (now : Int) : Bool :=
  match r.expires_at with
  | none => false
  | some t => decide (t < now)

/-- The 62-character alphabet `string.ascii_letters + string.digits`
used by `generate_short_code`. -/
def codeAlphabet : List Char :=
  "abcdefghijklmnopqrstuvwxyzABCDEFGHIJKLMNOPQRSTUVWXYZ0123456789".toList

/-- `generate_short_code` (main.py lines 82-85): `length` independent draws
from `codeAlphabet`. The secure random source is the oracle `choice`; draw
`i` picks the element at index `choice i` reduced modulo the alphabet size,
so any sequence of picks `secrets.choice` could make is representable. -/
def generate_short_code (choice : Nat → Nat) (length : Nat := 6) : String :=
  String.mk ((List.range length).map (fun i =>
    codeAlphabet.get ⟨choice i % codeAlphabet.length, Nat.mod_lt _ (by decide)⟩))

/-- Outcome of the redirect endpoint: HTTP 404, HTTP 410 with its detail
string, or a redirect to the original URL. -/
inductive RedirectResult where
  | notFound
  | gone (detail : String)
  | redirect (url : String)
deriving DecidableEq

/-- The boundary-level signal of a redirect outcome: both 410 bodies carry
the same `Gone` signal. -/
inductive Signal where
  | notFound
  | gone
  | redirect (url : String)
deriving DecidableEq

/-- Collapse a `RedirectResult` to its signal. -/
def signalOf : RedirectResult → Signal
  | .notFound => .notFound
  | .gone _ => .gone
  | .redirect u => .redirect u

/-- `url_record.click_count += 1`. -/
def incrClick (r : URLRecord) : URLRecord :=
  { r with click_count := r.click_count + 1 }

/-- `redirect_url` (main.py lines 172-191): look up the code; 404 when
absent; 410 when inactive; 410 when expired; otherwise increment the click
count, commit, and redirect to the original URL. -/
def redirect_url (code : String) (now : Int) (db : Store) :
    RedirectResult × Store :=
  match findByCode code db with
  | none => (.notFound, db)
  | some r =>
    if !r.is_active then (.gone "URL has been deactivated", db)
    else if is_url_expired r now then (.gone "URL has expired", db)
    else (.redirect r.original_url, updateFirst code incrClick db)

/-- Comparison variant of `redirect_url`, written from the spec sentence
"Order of checks does not affect the outcome": identical except that the
expiration check runs before the inactive check. -/
def redirect_url_expiryFirst (code : String) (now : Int) (db : Store) :
    RedirectResult × Store :=
  match findByCode code db with
  | none => (.notFound, db)
  | some r =>
    if is_url_expired r now then (.gone "URL has expired", db)
    else if !r.is_active then (.gone "URL has been deactivated", db)
    else (.redirect r.original_url, updateFirst code incrClick db)

/-- The `URLResponse` pydantic model (main.py lines 52-60), without the
externally rendered `qr_code` field. -/
structure URLResponse where
  short_url : String
  original_url : String
  click_count : Nat
  created_at : Int
  expires_at : Option Int
  is_active : Bool
  title : Option String
deriving DecidableEq

/-- `get_url_stats` (main.py lines 193-214): full snapshot of the record
when found (no activity or expiry check), `none` (HTTP 404) otherwise; the
store is returned unchanged since the handler never writes. -/
def get_url_stats (code : String) (db : Store) :
    Option URLResponse × Store :=
  match findByCode code db with
  | none => (none, db)
  | some r =>
    (some { short_url := "http://localhost:8000/" ++ r.short_code
            original_url := r.original_url
            click_count := r.click_count
            created_at := r.created_at
            expires_at := r.expires_at
            is_active := r.is_active
            title := r.title }, db)

/-- `deactivate_url` (main.py lines 274-285): `none` (HTTP 404) when the
code is unknown, else set `is_active` to `False` on the found record. -/
def deactivate_url (code : String) (db : Store) : Option Unit × Store :=
  match findByCode code db with
  | none => (none, db)
  | some _ =>
    (some (), updateFirst code (fun r => { r with is_active := false }) db)

/-- The `URLShortenRequest` pydantic model (main.py lines 42-46). -/
structure URLShortenRequest where
  url : String
  custom_alias : Option String
  expires_in_days : Option Int
  title : Option String

/-- Outcome of the single-shorten endpoint: HTTP 400 for a malformed URL,
HTTP 400 for a taken alias, or the created response. -/
inductive ShortenOutcome where
  | invalidUrl
  | aliasTaken
  | ok (resp : URLResponse)
deriving DecidableEq

/-- Python truthiness of `if request.custom_alias:`: an alias counts as
supplied only when it is present and non-empty. -/
def suppliedAlias (req : URLShortenRequest) : Option String :=
  match req.custom_alias with
  | some a => if a = "" then none else some a
  | none => none

/-- `expires_at` computation (main.py lines 141-144 and 236-239):
`if request.expires_in_days:` is a Python truthiness test, so both `None`
and `0` leave `expires_at` empty; any other value `d` yields
`utcnow() + timedelta(days=d)`. -/
def computeExpiry (now : Int) (days : Option Int) : Option Int :=
  match days with
  | none => none
  | some d => if d = 0 then none else some (now + d)

/-- The record handed to `db.add` by both create paths: column defaults
fill `created_at = utcnow()`, `click_count = 0`, `is_active = True`. -/
def mkRecord (code url : String) (now : Int) (expires : Option Int)
    (title : Option String) : URLRecord :=
  { short_code := code
    original_url := url
    created_at := now
    click_count := 0
    expires_at := expires
    is_active := true
    title := title }

/-- The `URLResponse` both create paths return: `click_count` and
`is_active` are the hard-coded literals `0` and `True` of the source. -/
def mkShortenResponse (r : URLRecord) : URLResponse :=
  { short_url := "http://localhost:8000/" ++ r.short_code
    original_url := r.original_url
    click_count := 0
    created_at := r.created_at
    expires_at := r.expires_at
    is_active := true
    title := r.title }

/-- The `while True: short_code = generate_short_code(); ...` retry loop
(main.py lines 135-139 and 230-234): draw candidates `gen k, gen (k+1), …`
until one is absent from the store; `none` after `fuel` colliding draws
models the loop still running. Returns the fresh code and the next unused
draw index. -/
def pickFreshCode (gen : Nat → String) (db : Store) :
    Nat → Nat → Option (String × Nat)
  | _, 0 => none
  | k, fuel + 1 =>
    match findByCode (gen k) db with
    | none => some (gen k, k + 1)
    | some _ => pickFreshCode gen db (k + 1) fuel

/-- `shorten_url` (main.py lines 118-170): validate the URL, resolve the
short code (custom alias with a pre-existence check, else fresh generated
code), compute expiry, append the new record, return the response. -/
def shorten_url (valid : String → Bool) (gen : Nat → String) (k fuel : Nat)
    (now : Int) (req : URLShortenRequest) (db : Store) :
    Option (ShortenOutcome × Store) :=
  if !valid req.url then some (.invalidUrl, db)
  else
    match suppliedAlias req with
    | some a =>
      match findByCode a db with
      | some _ => some (.aliasTaken, db)
      | none =>
        let newRec := mkRecord a req.url now
          (computeExpiry now req.expires_in_days) req.title
        some (.ok (mkShortenResponse newRec), db ++ [newRec])
    | none =>
      match pickFreshCode gen db k fuel with
      | none => none
      | some (code, _) =>
        let newRec := mkRecord code req.url now
          (computeExpiry now req.expires_in_days) req.title
        some (.ok (mkShortenResponse newRec), db ++ [newRec])

/-- The `BulkURLResponse` pydantic model (main.py lines 62-65). -/
structure BulkURLResponse where
  results : List URLResponse
  total_created : Nat
  errors : List String
deriving DecidableEq

/-- The per-URL loop of `bulk_shorten_urls` (main.py lines 222-266):
invalid URLs append an error string and continue; valid ones get a fresh
generated code and are appended to the store; the generator draw index `k`
threads through iterations. -/
def bulkGo (valid : String → Bool) (gen : Nat → String) (fuel : Nat)
    (now : Int) (days : Option Int) :
    List String → Nat → Store →
    Option (List URLResponse × List String × Store)
  | [], _, db => some ([], [], db)
  | u :: rest, k, db =>
    if !valid u then
      match bulkGo valid gen fuel now days rest k db with
      | none => none
      | some (rs, es, db') => some (rs, ("Invalid URL format: " ++ u) :: es, db')
    else
      match pickFreshCode gen db k fuel with
      | none => none
      | some (code, k') =>
        let newRec := mkRecord code u now (computeExpiry now days) none
        match bulkGo valid gen fuel now days rest k' (db ++ [newRec]) with
        | none => none
        | some (rs, es, db') => some (mkShortenResponse newRec :: rs, es, db')

/-- `bulk_shorten_urls` (main.py lines 216-272): run the loop and package
results, `total_created = len(results)`, and errors. -/
def bulk_shorten_urls (valid : String → Bool) (gen : Nat → String)
    (k fuel : Nat) (now : Int) (urls : List String) (days : Option Int)
    (db : Store) : Option (BulkURLResponse × Store) :=
  match bulkGo valid gen fuel now days urls k db with
  | none => none
  | some (rs, es, db') =>
    some ({ results := rs, total_created := rs.length, errors := es }, db')

/-- `K` successive visits of the redirect endpoint for `code` at time
`now`: the `K`-fold application of `redirect_url` to the store. -/
def redirectIter (code : String) (now : Int) : Nat → Store → Store
  | 0, db => db
  | K + 1, db => redirectIter code now K (redirect_url code now db).2

/-- No two records in the store share a `short_code`. -/
def codesNodup (db : Store) : Prop :=
  (db.map URLRecord.short_code).Nodup

instance : DecidablePred codesNodup := fun db =>
  inferInstanceAs (Decidable (db.map URLRecord.short_code).Nodup)

/-! ### Store lemmas -/

/-- A found record carries the looked-up code and belongs to the store. -/
theorem findByCode_some {code : String} {db : Store} {r : URLRecord}
    (h : findByCode code db = some r) : r.short_code = code ∧ r ∈ db := by
  refine ⟨?_, List.mem_of_find?_eq_some h⟩
  simpa using List.find?_some h

/-- A lookup misses exactly when no stored record carries the code. -/
theorem findByCode_none {code : String} {db : Store} :
    findByCode code db = none ↔ ∀ r ∈ db, r.short_code ≠ code := by
  simp [findByCode, List.find?_eq_none]

/-- A successful lookup splits the store at the first matching record, and
`updateFirst` rewrites exactly that record. -/
theorem updateFirst_split {code : String} {db : Store} {r : URLRecord}
    (h : findByCode code db = some r) :
    ∃ l₁ l₂, db = l₁ ++ r :: l₂ ∧ (∀ x ∈ l₁, x.short_code ≠ code) ∧
      ∀ f, updateFirst code f db = l₁ ++ f r :: l₂ := by
  induction db with
  | nil => exact absurd h (by simp [findByCode])
  | cons x xs ih =>
    by_cases hx : x.short_code = code
    · have hr : x = r := by
        have hfx : findByCode code (x :: xs) = some x := by
          simp [findByCode, List.find?_cons, hx]
        rw [hfx] at h
        exact Option.some.inj h
      subst hr
      exact ⟨[], xs, rfl, by simp, fun f => by simp [updateFirst, hx]⟩
    · have h' : findByCode code xs = some r := by
        simpa [findByCode, List.find?_cons, hx] using h
      obtain ⟨l₁, l₂, hdb, hl₁, hupd⟩ := ih h'
      refine ⟨x :: l₁, l₂, by simp [hdb], ?_, ?_⟩
      · intro y hy
        rcases List.mem_cons.mp hy with hy | hy
        · subst hy; exact hx
        · exact hl₁ y hy
      · intro f
        simp [updateFirst, hx, hupd f]

/-- Lookup skips a prefix of non-matching records and finds the middle one. -/
theorem findByCode_append_middle {code : String} {l₁ l₂ : Store}
    {y : URLRecord} (h₁ : ∀ x ∈ l₁, x.short_code ≠ code)
    (hy : y.short_code = code) :
    findByCode code (l₁ ++ y :: l₂) = some y := by
  induction l₁ with
  | nil => simp [findByCode, List.find?_cons, hy]
  | cons x xs ih =>
    have hx : x.short_code ≠ code := h₁ x (by simp)
    have := ih (fun z hz => h₁ z (by simp [hz]))
    simpa [findByCode, List.find?_cons, hx] using this

/-- Updating the first match of `code` replaces it, provided `f` preserves
the short code. -/
theorem findByCode_updateFirst_of_some {code : String} {db : Store}
    {r : URLRecord} {f : URLRecord → URLRecord}
    (hf : findByCode code db = some r)
    (hpres : (f r).short_code = r.short_code) :
    findByCode code (updateFirst code f db) = some (f r) := by
  obtain ⟨l₁, l₂, _, hl₁, hupd⟩ := updateFirst_split hf
  rw [hupd f]
  exact findByCode_append_middle hl₁ (by rw [hpres, (findByCode_some hf).1])

/-- Appending a record whose code misses the store keeps codes distinct. -/
theorem codesNodup_append_single {db : Store} {r : URLRecord}
    (h : codesNodup db) (hf : findByCode r.short_code db = none) :
    codesNodup (db ++ [r]) := by
  have hall := findByCode_none.mp hf
  unfold codesNodup at h ⊢
  rw [List.map_append, List.nodup_append]
  refine ⟨h, List.nodup_singleton _, ?_⟩
  intro s hs
  obtain ⟨x, hx, hxs⟩ := List.mem_map.mp hs
  simp only [List.map_cons, List.map_nil, List.mem_singleton]
  intro hcon
  exact hall x hx (by rw [hxs, hcon])

/-- A code returned by the retry loop is absent from the store. -/
theorem pickFreshCode_fresh {gen : Nat → String} {db : Store} {k fuel : Nat}
    {c : String} {k' : Nat}
    (h : pickFreshCode gen db k fuel = some (c, k')) :
    findByCode c db = none := by
  induction fuel generalizing k with
  | zero => simp [pickFreshCode] at h
  | succ n ih =>
    rw [pickFreshCode] at h
    cases hf : findByCode (gen k) db with
    | none =>
      rw [hf] at h
      obtain ⟨hc, _⟩ := Prod.mk.injEq .. ▸ Option.some.inj h
      rw [← hc]
      exact hf
    | some _ =>
      rw [hf] at h
      exact ih h

/-! ### shorten_url and bulk lemmas -/

/-- Exhaustive description of a terminating `shorten_url` call: either the
store is untouched and the outcome is an error, or exactly one record —
fresh code, the request's URL, expiry and title, column defaults for the
rest — is appended and returned. -/
theorem shorten_url_cases {valid : String → Bool} {gen : Nat → String}
    {k fuel : Nat} {now : Int} {req : URLShortenRequest} {db : Store}
    {out : ShortenOutcome} {db' : Store}
    (h : shorten_url valid gen k fuel now req db = some (out, db')) :
    (db' = db ∧ (out = .invalidUrl ∨ out = .aliasTaken)) ∨
    ∃ c, findByCode c db = none ∧
      db' = db ++ [mkRecord c req.url now
        (computeExpiry now req.expires_in_days) req.title] ∧
      out = .ok (mkShortenResponse (mkRecord c req.url now
        (computeExpiry now req.expires_in_days) req.title)) := by
  unfold shorten_url at h
  cases hv : valid req.url with
  | false =>
    rw [hv] at h
    simp at h
    exact Or.inl ⟨h.2.symm, Or.inl h.1.symm⟩
  | true =>
    rw [hv] at h
    simp only [Bool.not_true, Bool.false_eq_true, if_false] at h
    cases ha : suppliedAlias req with
    | some a =>
      simp only [ha] at h
      cases hf : findByCode a db with
      | some r =>
        simp only [hf] at h
        simp at h
        exact Or.inl ⟨h.2.symm, Or.inr h.1.symm⟩
      | none =>
        simp only [hf] at h
        simp at h
        exact Or.inr ⟨a, hf, h.2.symm, h.1.symm⟩
    | none =>
      simp only [ha] at h
      cases hp : pickFreshCode gen db k fuel with
      | none => simp [hp] at h
      | some ck =>
        obtain ⟨c, k'⟩ := ck
        simp only [hp] at h
        simp at h
        exact Or.inr ⟨c, pickFreshCode_fresh hp, h.2.symm, h.1.symm⟩

/-- Every record in the store left by the bulk loop either was already
there or is a freshly created record for one of the input URLs, with the
request-wide expiry, zero clicks, active, and no title. -/
theorem bulkGo_mem {valid : String → Bool} {gen : Nat → String} {fuel : Nat}
    {now : Int} {days : Option Int} {urls : List String} {k : Nat}
    {db : Store} {rs : List URLResponse} {es : List String} {db' : Store}
    (h : bulkGo valid gen fuel now days urls k db = some (rs, es, db')) :
    ∀ x ∈ db', x ∈ db ∨
      ∃ c u, u ∈ urls ∧ x = mkRecord c u now (computeExpiry now days) none := by
  induction urls generalizing k db rs es db' with
  | nil =>
    simp [bulkGo] at h
    obtain ⟨_, _, hdb⟩ := h
    intro x hx
    exact Or.inl (hdb ▸ hx)
  | cons u rest ih =>
    rw [bulkGo] at h
    cases hv : valid u with
    | false =>
      rw [hv] at h
      simp only [Bool.not_false, if_true] at h
      cases hrec : bulkGo valid gen fuel now days rest k db with
      | none => simp [hrec] at h
      | some t =>
        obtain ⟨rs₁, es₁, db₁⟩ := t
        simp only [hrec] at h
        simp at h
        intro x hx
        rcases ih hrec x (h.2.2 ▸ hx) with hx' | ⟨c, u', hu', hx'⟩
        · exact Or.inl hx'
        · exact Or.inr ⟨c, u', by simp [hu'], hx'⟩
    | true =>
      rw [hv] at h
      simp only [Bool.not_true, Bool.false_eq_true, if_false] at h
      cases hp : pickFreshCode gen db k fuel with
      | none => simp [hp] at h
      | some ck =>
        obtain ⟨c, k'⟩ := ck
        simp only [hp] at h
        cases hrec : bulkGo valid gen fuel now days rest k'
            (db ++ [mkRecord c u now (computeExpiry now days) none]) with
        | none => simp [hrec] at h
        | some t =>
          obtain ⟨rs₁, es₁, db₁⟩ := t
          simp only [hrec] at h
          simp at h
          intro x hx
          rcases ih hrec x (h.2.2 ▸ hx) with hx' | ⟨c', u', hu', hx'⟩
          · rcases List.mem_append.mp hx' with hx'' | hx''
            · exact Or.inl hx''
            · exact Or.inr ⟨c, u, by simp, by simpa using hx''⟩
          · exact Or.inr ⟨c', u', by simp [hu'], hx'⟩

/-- The bulk loop preserves distinctness of short codes. -/
theorem bulkGo_nodup {valid : String → Bool} {gen : Nat → String}
    {fuel : Nat} {now : Int} {days : Option Int} {urls : List String}
    {k : Nat} {db : Store} {rs : List URLResponse} {es : List String}
    {db' : Store}
    (h : bulkGo valid gen fuel now days urls k db = some (rs, es, db'))
    (hn : codesNodup db) : codesNodup db' := by
  induction urls generalizing k db rs es db' with
  | nil =>
    simp [bulkGo] at h
    exact h.2.2 ▸ hn
  | cons u rest ih =>
    rw [bulkGo] at h
    cases hv : valid u with
    | false =>
      rw [hv] at h
      simp only [Bool.not_false, if_true] at h
      cases hrec : bulkGo valid gen fuel now days rest k db with
      | none => simp [hrec] at h
      | some t =>
        obtain ⟨rs₁, es₁, db₁⟩ := t
        simp only [hrec] at h
        simp at h
        exact h.2.2 ▸ ih hrec hn
    | true =>
      rw [hv] at h
      simp only [Bool.not_true, Bool.false_eq_true, if_false] at h
      cases hp : pickFreshCode gen db k fuel with
      | none => simp [hp] at h
      | some ck =>
        obtain ⟨c, k'⟩ := ck
        simp only [hp] at h
        cases hrec : bulkGo valid gen fuel now days rest k'
            (db ++ [mkRecord c u now (computeExpiry now days) none]) with
        | none => simp [hrec] at h
        | some t =>
          obtain ⟨rs₁, es₁, db₁⟩ := t
          simp only [hrec] at h
          simp at h
          refine h.2.2 ▸ ih hrec ?_
          exact codesNodup_append_single hn (pickFreshCode_fresh hp)

/-! ### Redirect lemmas -/

/-- A found, active, unexpired record redirects and bumps only its click
count. -/
theorem redirect_url_success {code : String} {now : Int} {db : Store}
    {r : URLRecord} (hf : findByCode code db = some r)
    (ha : r.is_active = true) (he : is_url_expired r now = false) :
    redirect_url code now db =
      (.redirect r.original_url, updateFirst code incrClick db) := by
  simp [redirect_url, hf, ha, he]

/-- Iterating the redirect endpoint `K` times over an active, unexpired
record adds exactly `K` to its click count, and every one of the `K`
attempts lands on the success path. -/
theorem redirectIter_count {code : String} {now : Int} (K : Nat) :
    ∀ {db : Store} {r : URLRecord}, findByCode code db = some r →
      r.is_active = true → is_url_expired r now = false →
      findByCode code (redirectIter code now K db) =
        some { r with click_count := r.click_count + K } ∧
      ∀ j < K, (redirect_url code now (redirectIter code now j db)).1 =
        .redirect r.original_url := by
  induction K with
  | zero =>
    intro db r hf _ _
    refine ⟨by simpa [redirectIter] using hf, ?_⟩
    intro j hj
    exact absurd hj (by omega)
  | succ K ih =>
    intro db r hf ha he
    have hstep := redirect_url_success hf ha he
    have hdb₁ : (redirect_url code now db).2 = updateFirst code incrClick db := by
      rw [hstep]
    have hf₁ : findByCode code (updateFirst code incrClick db) =
        some (incrClick r) :=
      findByCode_updateFirst_of_some hf rfl
    have ha₁ : (incrClick r).is_active = true := ha
    have he₁ : is_url_expired (incrClick r) now = false := he
    obtain ⟨hcount, hsucc⟩ := ih hf₁ ha₁ he₁
    constructor
    · show findByCode code (redirectIter code now K (redirect_url code now db).2) = _
      rw [hdb₁, hcount]
      show some { r with click_count := r.click_count + 1 + K } = _
      rw [show r.click_count + 1 + K = r.click_count + (K + 1) from by omega]
    · intro j hj
      cases j with
      | zero =>
        show (redirect_url code now db).1 = _
        rw [hstep]
      | succ j =>
        show (redirect_url code now
          (redirectIter code now j (redirect_url code now db).2)).1 = _
        rw [hdb₁]
        exact hsucc j (by omega)

/-- The two check orders produce the same boundary signal and the same
store, on every input. -/
theorem redirect_orders_agree (c : String) (n : Int) (s : Store) :
    signalOf (redirect_url c n s).1 =
      signalOf (redirect_url_expiryFirst c n s).1 ∧
    (redirect_url c n s).2 = (redirect_url_expiryFirst c n s).2 := by
  unfold redirect_url redirect_url_expiryFirst
  cases hf : findByCode c s with
  | none => exact ⟨rfl, rfl⟩
  | some r =>
    cases ha : r.is_active <;> cases he : is_url_expired r n <;>
      simp [signalOf, ha, he]

/-! ### Concrete data for witnesses -/

/-- A sample active, never-expiring record. -/
def sampleRec : URLRecord :=
  { short_code := "abc", original_url := "https://x.com", created_at := 0,
    click_count := 0, expires_at := none, is_active := true, title := none }

/-- The sample record after deactivation. -/
def sampleInactive : URLRecord := { sampleRec with is_active := false }

/-- The sample record with an expiry one day before its creation. -/
def sampleExpired : URLRecord := { sampleRec with expires_at := some (-1) }

/-- A sample validator oracle accepting exactly two URLs. -/
def sampleValid : String → Bool :=
  fun u => u == "https://a.com" || u == "https://b.com"

/-- A sample generator stream with two distinct codes. -/
def sampleGen : Nat → String := fun i => if i == 0 then "x" else "y"

/-! ### Claims -/

/-- C1: resolving a stored code returns Gone (HTTP 410) whenever the record
is inactive or expired: either condition alone blocks, both blocked cases
carry the same Gone signal, swapping the order of the two checks never
changes the signal or the store, and no click-count increment happens in a
blocked case (the store is unchanged). -/
theorem claim_C1 (code : String) (now : Int) (db : Store) (r : URLRecord)
    (hf : findByCode code db = some r)
    (hb : r.is_active = false ∨ is_url_expired r now = true) :
    signalOf (redirect_url code now db).1 = .gone ∧
    (redirect_url code now db).2 = db ∧
    signalOf (redirect_url_expiryFirst code now db).1 = .gone ∧
    (redirect_url_expiryFirst code now db).2 = db ∧
    ∀ c n s, signalOf (redirect_url c n s).1 =
        signalOf (redirect_url_expiryFirst c n s).1 ∧
      (redirect_url c n s).2 = (redirect_url_expiryFirst c n s).2 := by
  refine ⟨?_, ?_, ?_, ?_, redirect_orders_agree⟩ <;>
  · rcases hb with hbl | hbl
    · cases he : is_url_expired r now <;>
        simp [redirect_url, redirect_url_expiryFirst, hf, hbl, he, signalOf]
    · cases ha : r.is_active <;>
        simp [redirect_url, redirect_url_expiryFirst, hf, hbl, ha, signalOf]

/-- C1 witness: a concrete deactivated record yields the Gone signal. -/
theorem claim_C1_witness :
    signalOf (redirect_url "abc" 0 [sampleInactive]).1 = .gone :=
  (claim_C1 "abc" 0 [sampleInactive] sampleInactive rfl (Or.inl rfl)).1

/-- C5: when the store already holds a record under code `a`, a shorten
request that supplies custom alias `a` (present and non-empty, per the
source's truthiness test) and a well-formed URL fails with AliasTaken and
leaves the store unchanged — no new record is created. -/
theorem claim_C5 (valid : String → Bool) (gen : Nat → String) (k fuel : Nat)
    (now : Int) (req : URLShortenRequest) (db : Store) (r : URLRecord)
    (a : String) (hal : req.custom_alias = some a) (hne : a ≠ "")
    (hv : valid req.url = true) (hf : findByCode a db = some r) :
    shorten_url valid gen k fuel now req db = some (.aliasTaken, db) := by
  have hsup : suppliedAlias req = some a := by simp [suppliedAlias, hal, hne]
  unfold shorten_url
  simp [hv, hsup, hf]

/-- C5 witness: requesting the already-stored alias "abc" is rejected. -/
theorem claim_C5_witness :
    shorten_url (fun _ => true) sampleGen 0 1 0
      { url := "https://x.com", custom_alias := some "abc",
        expires_in_days := none, title := none } [sampleRec] =
      some (.aliasTaken, [sampleRec]) :=
  claim_C5 (fun _ => true) sampleGen 0 1 0
    { url := "https://x.com", custom_alias := some "abc",
      expires_in_days := none, title := none } [sampleRec] sampleRec "abc"
    rfl (by decide) rfl rfl

/-- C6: resolving a code absent from the store returns NotFound (with the
store untouched), never Gone; the NotFound and Gone outcomes are distinct
constructors, so callers can tell "never existed" from "existed but
blocked". -/
theorem claim_C6 (code : String) (now : Int) (db : Store)
    (h : findByCode code db = none) :
    redirect_url code now db = (.notFound, db) ∧
    signalOf (redirect_url code now db).1 = .notFound ∧
    (∀ d, (RedirectResult.notFound : RedirectResult) ≠ .gone d) ∧
    Signal.notFound ≠ Signal.gone := by
  have heq : redirect_url code now db = (.notFound, db) := by
    simp [redirect_url, h]
  exact ⟨heq, by rw [heq]; rfl, fun d => by simp, by simp⟩

/-- C6 witness: an unknown code on the empty store resolves to NotFound. -/
theorem claim_C6_witness :
    redirect_url "zz" 0 [] = (.notFound, []) :=
  (claim_C6 "zz" 0 [] rfl).1

/-- C7: the statistics lookup of an existing record returns the full
snapshot (originalUrl, createdAt, expiresAt, clickCount, isActive, title)
with no condition on activity or expiry and without touching the store,
and it returns NotFound exactly when no record with that code exists. -/
theorem claim_C7 :
    (∀ code db r, findByCode code db = some r →
      get_url_stats code db =
        (some { short_url := "http://localhost:8000/" ++ r.short_code
                original_url := r.original_url
                click_count := r.click_count
                created_at := r.created_at
                expires_at := r.expires_at
                is_active := r.is_active
                title := r.title }, db)) ∧
    (∀ code db, (get_url_stats code db).1 = none ↔
      findByCode code db = none) := by
  constructor
  · intro code db r h
    simp [get_url_stats, h]
  · intro code db
    unfold get_url_stats
    cases h : findByCode code db <;> simp

/-- C7 witness: stats of a deactivated record still returns its snapshot. -/
theorem claim_C7_witness :
    get_url_stats "abc" [sampleInactive] =
      (some { short_url := "http://localhost:8000/" ++ sampleInactive.short_code
              original_url := sampleInactive.original_url
              click_count := sampleInactive.click_count
              created_at := sampleInactive.created_at
              expires_at := sampleInactive.expires_at
              is_active := sampleInactive.is_active
              title := sampleInactive.title }, [sampleInactive]) :=
  claim_C7.1 "abc" [sampleInactive] sampleInactive rfl

/-- C8: `generate_short_code` returns a string of exactly the requested
length, every character of which lies in the 62-character alphanumeric
alphabet, and the default length is 6. -/
theorem claim_C8 :
    (∀ choice len, (generate_short_code choice len).length = len) ∧
    (∀ choice len c, c ∈ (generate_short_code choice len).toList →
      c ∈ codeAlphabet) ∧
    codeAlphabet.length = 62 ∧
    (∀ choice, generate_short_code choice = generate_short_code choice 6) := by
  refine ⟨?_, ?_, by decide, fun _ => rfl⟩
  · intro choice len
    simp [generate_short_code, String.length]
  · intro choice len c hc
    obtain ⟨i, _, hi⟩ := List.mem_map.mp hc
    rw [← hi]
    exact codeAlphabet.get_mem _ _

/-- C8 witness: a character of a concretely generated code is in the
alphabet. -/
theorem claim_C8_witness : 'a' ∈ codeAlphabet :=
  claim_C8.2.1 (fun _ => 0) 3 'a' (by decide)

/-- Rewriting records in place never changes the stored code sequence,
provided the rewrite preserves each record's code. -/
theorem updateFirst_map_code {code : String} (f : URLRecord → URLRecord)
    (hp : ∀ r, (f r).short_code = r.short_code) (db : Store) :
    (updateFirst code f db).map URLRecord.short_code =
      db.map URLRecord.short_code := by
  induction db with
  | nil => rfl
  | cons x xs ih =>
    unfold updateFirst
    by_cases hx : x.short_code == code
    · simp [hx, hp]
    · simp [hx, ih]

/-- The error list produced by the bulk loop is exactly one message per
invalid URL, in order, and the result list has one entry per valid URL. -/
theorem bulkGo_shape {valid : String → Bool} {gen : Nat → String}
    {fuel : Nat} {now : Int} {days : Option Int} {urls : List String}
    {k : Nat} {db : Store} {rs : List URLResponse} {es : List String}
    {db' : Store}
    (h : bulkGo valid gen fuel now days urls k db = some (rs, es, db')) :
    es = (urls.filter (fun u => !valid u)).map
      (fun u => "Invalid URL format: " ++ u) ∧
    rs.length = (urls.filter (fun u => valid u)).length := by
  induction urls generalizing k db rs es db' with
  | nil =>
    simp [bulkGo] at h
    obtain ⟨h1, h2, _⟩ := h
    subst h1; subst h2
    simp
  | cons u rest ih =>
    rw [bulkGo] at h
    cases hv : valid u with
    | false =>
      rw [hv] at h
      simp only [Bool.not_false, if_true] at h
      cases hrec : bulkGo valid gen fuel now days rest k db with
      | none => simp [hrec] at h
      | some t =>
        obtain ⟨rs₁, es₁, db₁⟩ := t
        simp only [hrec] at h
        simp at h
        obtain ⟨hsh₁, hsh₂⟩ := ih hrec
        simp [← h.1, ← h.2.1, List.filter_cons, hv, hsh₁, hsh₂]
    | true =>
      rw [hv] at h
      simp only [Bool.not_true, Bool.false_eq_true, if_false] at h
      cases hp : pickFreshCode gen db k fuel with
      | none => simp [hp] at h
      | some ck =>
        obtain ⟨c, k'⟩ := ck
        simp only [hp] at h
        cases hrec : bulkGo valid gen fuel now days rest k'
            (db ++ [mkRecord c u now (computeExpiry now days) none]) with
        | none => simp [hrec] at h
        | some t =>
          obtain ⟨rs₁, es₁, db₁⟩ := t
          simp only [hrec] at h
          simp at h
          obtain ⟨hsh₁, hsh₂⟩ := ih hrec
          simp [← h.1, ← h.2.1, List.filter_cons, hv, hsh₁, hsh₂]

/-- C2: no two records in the store ever share a short code: both single
create paths (custom alias and generated code) and the bulk path preserve
distinctness of all stored codes, and the mutating read paths (redirect,
deactivate) never change any code. -/
theorem claim_C2 :
    (∀ valid gen k fuel now req db out db', codesNodup db →
      shorten_url valid gen k fuel now req db = some (out, db') →
      codesNodup db') ∧
    (∀ valid gen k fuel now urls days db resp db', codesNodup db →
      bulk_shorten_urls valid gen k fuel now urls days db =
        some (resp, db') →
      codesNodup db') ∧
    (∀ code now db, codesNodup db →
      codesNodup (redirect_url code now db).2) ∧
    (∀ code db, codesNodup db → codesNodup (deactivate_url code db).2) := by
  refine ⟨?_, ?_, ?_, ?_⟩
  · intro valid gen k fuel now req db out db' hn h
    rcases shorten_url_cases h with ⟨hdb, _⟩ | ⟨c, hfresh, hdb, _⟩
    · exact hdb ▸ hn
    · subst hdb
      exact codesNodup_append_single hn hfresh
  · intro valid gen k fuel now urls days db resp db' hn h
    unfold bulk_shorten_urls at h
    cases hgo : bulkGo valid gen fuel now days urls k db with
    | none => simp [hgo] at h
    | some t =>
      obtain ⟨rs, es, dbx⟩ := t
      simp only [hgo] at h
      simp at h
      exact h.2 ▸ bulkGo_nodup hgo hn
  · intro code now db hn
    cases hf : findByCode code db with
    | none =>
      have heq : (redirect_url code now db).2 = db := by
        simp [redirect_url, hf]
      rw [heq]; exact hn
    | some r =>
      cases ha : r.is_active with
      | false =>
        have heq : (redirect_url code now db).2 = db := by
          simp [redirect_url, hf, ha]
        rw [heq]; exact hn
      | true =>
        cases he : is_url_expired r now with
        | true =>
          have heq : (redirect_url code now db).2 = db := by
            simp [redirect_url, hf, ha, he]
          rw [heq]; exact hn
        | false =>
          rw [redirect_url_success hf ha he]
          show codesNodup (updateFirst code incrClick db)
          unfold codesNodup
          rw [updateFirst_map_code incrClick (fun _ => rfl)]
          exact hn
  · intro code db hn
    cases hf : findByCode code db with
    | none =>
      have heq : (deactivate_url code db).2 = db := by
        simp [deactivate_url, hf]
      rw [heq]; exact hn
    | some r =>
      have heq : (deactivate_url code db).2 =
          updateFirst code (fun x => { x with is_active := false }) db := by
        simp [deactivate_url, hf]
      rw [heq]
      unfold codesNodup
      rw [updateFirst_map_code (fun x => { x with is_active := false })
        (fun _ => rfl)]
      exact hn

/-- C2 witness: creating with a fresh alias on the empty store leaves the
codes distinct. -/
theorem claim_C2_witness :
    codesNodup [mkRecord "abc" "https://x.com" 0 none none] :=
  claim_C2.1 (fun _ => true) sampleGen 0 1 0
    { url := "https://x.com", custom_alias := some "abc",
      expires_in_days := none, title := none } []
    (.ok (mkShortenResponse (mkRecord "abc" "https://x.com" 0 none none)))
    [mkRecord "abc" "https://x.com" 0 none none]
    (by decide) rfl

/-- C3: a created record starts with `clickCount = 0` (both in the stored
record and the returned response); `K` successive redirects of an active,
never-expiring code all succeed and leave `clickCount = K` exactly; and
any redirect that does not succeed leaves the store — hence every click
count — unchanged. -/
theorem claim_C3 :
    (∀ valid gen k fuel now req db resp db',
      shorten_url valid gen k fuel now req db = some (.ok resp, db') →
      resp.click_count = 0 ∧ ∃ nr, db' = db ++ [nr] ∧ nr.click_count = 0) ∧
    (∀ code now db r K, findByCode code db = some r → r.click_count = 0 →
      r.is_active = true → is_url_expired r now = false →
      findByCode code (redirectIter code now K db) =
        some { r with click_count := K } ∧
      ∀ j < K, (redirect_url code now (redirectIter code now j db)).1 =
        .redirect r.original_url) ∧
    (∀ code now db, (∀ u, (redirect_url code now db).1 ≠ .redirect u) →
      (redirect_url code now db).2 = db) := by
  refine ⟨?_, ?_, ?_⟩
  · intro valid gen k fuel now req db resp db' h
    rcases shorten_url_cases h with ⟨_, hout | hout⟩ | ⟨c, _, hdb, hout⟩
    · exact absurd hout (by simp)
    · exact absurd hout (by simp)
    · have hresp : resp = mkShortenResponse (mkRecord c req.url now
          (computeExpiry now req.expires_in_days) req.title) := by
        injection hout
      exact ⟨hresp ▸ rfl, _, hdb, rfl⟩
  · intro code now db r K hf hc0 ha he
    obtain ⟨hcount, hsucc⟩ := redirectIter_count K hf ha he
    refine ⟨?_, hsucc⟩
    rw [hcount, hc0]
    simp
  · intro code now db hno
    cases hf : findByCode code db with
    | none => simp [redirect_url, hf]
    | some r =>
      cases ha : r.is_active with
      | false => simp [redirect_url, hf, ha]
      | true =>
        cases he : is_url_expired r now with
        | true => simp [redirect_url, hf, ha, he]
        | false =>
          exfalso
          exact hno r.original_url (by simp [redirect_url, hf, ha, he])

/-- C3 witness: two concrete successful redirects raise the count to 2. -/
theorem claim_C3_witness :
    findByCode "abc" (redirectIter "abc" 0 2 [sampleRec]) =
      some { sampleRec with click_count := 2 } :=
  (claim_C3.2.1 "abc" 0 [sampleRec] sampleRec 2 rfl rfl rfl rfl).1

/-- C4: bulk shorten is never all-or-nothing: `total_created` always
equals the length of the results list, and on the spec's concrete input
(valid, malformed, valid) it yields exactly 2 created records, exactly the
one error string naming the malformed URL, and `total_created = 2` — the
failure did not abort the remaining URL. -/
theorem claim_C4 :
    (∀ valid gen k fuel now urls days db resp db',
      bulk_shorten_urls valid gen k fuel now urls days db =
        some (resp, db') →
      resp.total_created = resp.results.length) ∧
    (∀ (valid : String → Bool) gen k fuel now days db resp db',
      valid "https://a.com" = true → valid "not-a-url" = false →
      valid "https://b.com" = true →
      bulk_shorten_urls valid gen k fuel now
        ["https://a.com", "not-a-url", "https://b.com"] days db =
        some (resp, db') →
      resp.results.length = 2 ∧
      resp.errors = ["Invalid URL format: not-a-url"] ∧
      resp.total_created = 2) := by
  constructor
  · intro valid gen k fuel now urls days db resp db' h
    unfold bulk_shorten_urls at h
    cases hgo : bulkGo valid gen fuel now days urls k db with
    | none => simp [hgo] at h
    | some t =>
      obtain ⟨rs, es, dbx⟩ := t
      simp only [hgo] at h
      simp at h
      rw [← h.1]
  · intro valid gen k fuel now days db resp db' hva hvn hvb h
    unfold bulk_shorten_urls at h
    cases hgo : bulkGo valid gen fuel now days
        ["https://a.com", "not-a-url", "https://b.com"] k db with
    | none => simp [hgo] at h
    | some t =>
      obtain ⟨rs, es, dbx⟩ := t
      simp only [hgo] at h
      simp at h
      obtain ⟨hes, hlen⟩ := bulkGo_shape hgo
      have hfe : (["https://a.com", "not-a-url", "https://b.com"].filter
          (fun u => !valid u)) = ["not-a-url"] := by
        simp [List.filter_cons, hva, hvn, hvb]
      have hfv : (["https://a.com", "not-a-url", "https://b.com"].filter
          (fun u => valid u)).length = 2 := by
        simp [List.filter_cons, hva, hvn, hvb]
      rw [hfe] at hes
      rw [hfv] at hlen
      refine ⟨?_, ?_, ?_⟩
      · rw [← h.1]; exact hlen
      · rw [← h.1, hes]; rfl
      · rw [← h.1]; exact hlen

/-- C4 witness: the spec's three-URL bulk request, run concretely. -/
theorem claim_C4_witness :
    ({ results := [mkShortenResponse (mkRecord "x" "https://a.com" 0 none none),
                   mkShortenResponse (mkRecord "y" "https://b.com" 0 none none)],
       total_created := 2,
       errors := ["Invalid URL format: not-a-url"] } :
      BulkURLResponse).results.length = 2 ∧
    ({ results := [mkShortenResponse (mkRecord "x" "https://a.com" 0 none none),
                   mkShortenResponse (mkRecord "y" "https://b.com" 0 none none)],
       total_created := 2,
       errors := ["Invalid URL format: not-a-url"] } :
      BulkURLResponse).errors = ["Invalid URL format: not-a-url"] ∧
    ({ results := [mkShortenResponse (mkRecord "x" "https://a.com" 0 none none),
                   mkShortenResponse (mkRecord "y" "https://b.com" 0 none none)],
       total_created := 2,
       errors := ["Invalid URL format: not-a-url"] } :
      BulkURLResponse).total_created = 2 :=
  claim_C4.2 sampleValid sampleGen 0 1 0 none []
    { results := [mkShortenResponse (mkRecord "x" "https://a.com" 0 none none),
                  mkShortenResponse (mkRecord "y" "https://b.com" 0 none none)],
      total_created := 2,
      errors := ["Invalid URL format: not-a-url"] }
    [mkRecord "x" "https://a.com" 0 none none,
     mkRecord "y" "https://b.com" 0 none none]
    rfl rfl rfl rfl

/-- A requested window of 0 days is falsy and leaves no expiry. -/
theorem computeExpiry_zero (now : Int) : computeExpiry now (some 0) = none := by
  simp [computeExpiry]

/-- A negative window of `-N` days sets the expiry `N` days in the past. -/
theorem computeExpiry_neg (now N : Int) (hN : 0 < N) :
    computeExpiry now (some (-N)) = some (now - N) := by
  have hne : (-N : Int) ≠ 0 := by omega
  show (if (-N : Int) = 0 then none else some (now + -N)) = some (now - N)
  rw [if_neg hne]
  congr 1

/-- A record with no expiry timestamp never expires. -/
theorem is_url_expired_none {x : URLRecord} (hx : x.expires_at = none)
    (t : Int) : is_url_expired x t = false := by
  simp [is_url_expired, hx]

/-- A record whose expiry is `N > 0` days before `now` is expired at `now`. -/
theorem is_url_expired_past {x : URLRecord} {now N : Int} (hN : 0 < N)
    (hx : x.expires_at = some (now - N)) : is_url_expired x now = true := by
  simp only [is_url_expired, hx, decide_eq_true_eq]
  omega

/-- C9: with `expires_in_days = 0` every record created by single or bulk
shorten has no `expiresAt` and never expires (0 behaves like omitting the
field), while with `expires_in_days = -N` (N > 0) every created record's
`expiresAt` is `N` days before creation time, so the record is already
expired for redirects at the moment it is created. -/
theorem claim_C9 :
    (∀ valid gen k fuel now req db out db', req.expires_in_days = some 0 →
      shorten_url valid gen k fuel now req db = some (out, db') →
      ∀ x ∈ db', x ∈ db ∨
        (x.expires_at = none ∧ ∀ t, is_url_expired x t = false)) ∧
    (∀ valid gen k fuel now req db out db' (N : Int), 0 < N →
      req.expires_in_days = some (-N) →
      shorten_url valid gen k fuel now req db = some (out, db') →
      ∀ x ∈ db', x ∈ db ∨
        (x.expires_at = some (now - N) ∧ is_url_expired x now = true)) ∧
    (∀ valid gen k fuel now urls db resp db',
      bulk_shorten_urls valid gen k fuel now urls (some 0) db =
        some (resp, db') →
      ∀ x ∈ db', x ∈ db ∨
        (x.expires_at = none ∧ ∀ t, is_url_expired x t = false)) ∧
    (∀ valid gen k fuel now urls db resp db' (N : Int), 0 < N →
      bulk_shorten_urls valid gen k fuel now urls (some (-N)) db =
        some (resp, db') →
      ∀ x ∈ db', x ∈ db ∨
        (x.expires_at = some (now - N) ∧ is_url_expired x now = true)) := by
  refine ⟨?_, ?_, ?_, ?_⟩
  · intro valid gen k fuel now req db out db' hd h x hx
    rcases shorten_url_cases h with ⟨hdb, _⟩ | ⟨c, _, hdb, _⟩
    · exact Or.inl (hdb ▸ hx)
    · subst hdb
      rcases List.mem_append.mp hx with hx' | hx'
      · exact Or.inl hx'
      · right
        have hxe : x = mkRecord c req.url now
            (computeExpiry now req.expires_in_days) req.title := by
          simpa using hx'
        have hexp : x.expires_at = none := by
          rw [hxe]
          show computeExpiry now req.expires_in_days = none
          rw [hd]
          exact computeExpiry_zero now
        exact ⟨hexp, is_url_expired_none hexp⟩
  · intro valid gen k fuel now req db out db' N hN hd h x hx
    rcases shorten_url_cases h with ⟨hdb, _⟩ | ⟨c, _, hdb, _⟩
    · exact Or.inl (hdb ▸ hx)
    · subst hdb
      rcases List.mem_append.mp hx with hx' | hx'
      · exact Or.inl hx'
      · right
        have hxe : x = mkRecord c req.url now
            (computeExpiry now req.expires_in_days) req.title := by
          simpa using hx'
        have hexp : x.expires_at = some (now - N) := by
          rw [hxe]
          show computeExpiry now req.expires_in_days = some (now - N)
          rw [hd]
          exact computeExpiry_neg now N hN
        exact ⟨hexp, is_url_expired_past hN hexp⟩
  · intro valid gen k fuel now urls db resp db' h x hx
    unfold bulk_shorten_urls at h
    cases hgo : bulkGo valid gen fuel now (some 0) urls k db with
    | none => simp [hgo] at h
    | some t =>
      obtain ⟨rs, es, dbx⟩ := t
      simp only [hgo] at h
      simp at h
      rcases bulkGo_mem hgo x (h.2 ▸ hx) with hx' | ⟨c, u, _, hxe⟩
      · exact Or.inl hx'
      · right
        have hexp : x.expires_at = none := by
          rw [hxe]
          exact computeExpiry_zero now
        exact ⟨hexp, is_url_expired_none hexp⟩
  · intro valid gen k fuel now urls db resp db' N hN h x hx
    unfold bulk_shorten_urls at h
    cases hgo : bulkGo valid gen fuel now (some (-N)) urls k db with
    | none => simp [hgo] at h
    | some t =>
      obtain ⟨rs, es, dbx⟩ := t
      simp only [hgo] at h
      simp at h
      rcases bulkGo_mem hgo x (h.2 ▸ hx) with hx' | ⟨c, u, _, hxe⟩
      · exact Or.inl hx'
      · right
        have hexp : x.expires_at = some (now - N) := by
          rw [hxe]
          exact computeExpiry_neg now N hN
        exact ⟨hexp, is_url_expired_past hN hexp⟩

/-- C9 witness: shortening with `expires_in_days = -1` creates a record
that is expired the moment it is created. -/
theorem claim_C9_witness :
    mkRecord "abc" "https://x.com" 0 (computeExpiry 0 (some (-1))) none ∈
      ([] : Store) ∨
    ((mkRecord "abc" "https://x.com" 0 (computeExpiry 0 (some (-1)))
        none).expires_at = some ((0 : Int) - 1) ∧
      is_url_expired
        (mkRecord "abc" "https://x.com" 0 (computeExpiry 0 (some (-1)))
          none) 0 = true) :=
  claim_C9.2.1 (fun _ => true) sampleGen 0 1 0
    { url := "https://x.com", custom_alias := some "abc",
      expires_in_days := some (-1), title := none } []
    (.ok (mkShortenResponse
      (mkRecord "abc" "https://x.com" 0 (computeExpiry 0 (some (-1))) none)))
    [mkRecord "abc" "https://x.com" 0 (computeExpiry 0 (some (-1))) none]
    1 (by decide) rfl rfl
    (mkRecord "abc" "https://x.com" 0 (computeExpiry 0 (some (-1))) none)
    (by simp)

/-- C10: each operation touches only its designated field — deactivation
of an existing code rewrites exactly the found record, setting only
`isActive` to false and keeping every other field and every other record;
a successful redirect rewrites exactly the found record, changing only
`clickCount` by +1; and a stats lookup changes no store state at all. -/
theorem claim_C10 :
    (∀ code db r, findByCode code db = some r →
      ∃ l₁ l₂, db = l₁ ++ r :: l₂ ∧
        deactivate_url code db =
          (some (), l₁ ++ { r with is_active := false } :: l₂) ∧
        ({ r with is_active := false } : URLRecord).short_code =
          r.short_code ∧
        ({ r with is_active := false } : URLRecord).original_url =
          r.original_url ∧
        ({ r with is_active := false } : URLRecord).created_at =
          r.created_at ∧
        ({ r with is_active := false } : URLRecord).expires_at =
          r.expires_at ∧
        ({ r with is_active := false } : URLRecord).click_count =
          r.click_count ∧
        ({ r with is_active := false } : URLRecord).title = r.title ∧
        ({ r with is_active := false } : URLRecord).is_active = false) ∧
    (∀ code now db r, findByCode code db = some r → r.is_active = true →
      is_url_expired r now = false →
      ∃ l₁ l₂, db = l₁ ++ r :: l₂ ∧
        redirect_url code now db = (.redirect r.original_url,
          l₁ ++ { r with click_count := r.click_count + 1 } :: l₂) ∧
        ({ r with click_count := r.click_count + 1 } : URLRecord).short_code =
          r.short_code ∧
        ({ r with click_count := r.click_count + 1 } :
          URLRecord).original_url = r.original_url ∧
        ({ r with click_count := r.click_count + 1 } : URLRecord).created_at =
          r.created_at ∧
        ({ r with click_count := r.click_count + 1 } : URLRecord).expires_at =
          r.expires_at ∧
        ({ r with click_count := r.click_count + 1 } : URLRecord).is_active =
          r.is_active ∧
        ({ r with click_count := r.click_count + 1 } : URLRecord).title =
          r.title) ∧
    (∀ code db, (get_url_stats code db).2 = db) := by
  refine ⟨?_, ?_, ?_⟩
  · intro code db r hf
    obtain ⟨l₁, l₂, hdb, _, hupd⟩ := updateFirst_split hf
    refine ⟨l₁, l₂, hdb, ?_, rfl, rfl, rfl, rfl, rfl, rfl, rfl⟩
    have heq : deactivate_url code db = (some (),
        updateFirst code (fun x => { x with is_active := false }) db) := by
      simp [deactivate_url, hf]
    rw [heq, hupd]
  · intro code now db r hf ha he
    obtain ⟨l₁, l₂, hdb, _, hupd⟩ := updateFirst_split hf
    refine ⟨l₁, l₂, hdb, ?_, rfl, rfl, rfl, rfl, rfl, rfl⟩
    rw [redirect_url_success hf ha he, hupd]
    rfl
  · intro code db
    unfold get_url_stats
    cases hf : findByCode code db <;> rfl

/-- C10 witness: deactivating the sample record rewrites only it. -/
theorem claim_C10_witness :
    ∃ l₁ l₂, ([sampleRec] : Store) = l₁ ++ sampleRec :: l₂ ∧
      deactivate_url "abc" [sampleRec] =
        (some (), l₁ ++ { sampleRec with is_active := false } :: l₂) ∧
      ({ sampleRec with is_active := false } : URLRecord).short_code =
        sampleRec.short_code ∧
      ({ sampleRec with is_active := false } : URLRecord).original_url =
        sampleRec.original_url ∧
      ({ sampleRec with is_active := false } : URLRecord).created_at =
        sampleRec.created_at ∧
      ({ sampleRec with is_active := false } : URLRecord).expires_at =
        sampleRec.expires_at ∧
      ({ sampleRec with is_active := false } : URLRecord).click_count =
        sampleRec.click_count ∧
      ({ sampleRec with is_active := false } : URLRecord).title =
        sampleRec.title ∧
      ({ sampleRec with is_active := false } : URLRecord).is_active =
        false :=
  claim_C10.1 "abc" [sampleRec] sampleRec rfl

end UrlShortener
